import Mathlib

/-!
Shallow embedding of the analytics computation layer of the period-poverty
API (file app/routers/analytics.py), together with the datastore record
types it queries (app/models.py) and the response shapes (app/schemas.py).

Numbers are modelled by the rationals; a datastore snapshot is a quadruple
of lists, list order standing for the incidental storage order that an
unordered SQL query returns rows in.  Each route handler becomes a total
function from a snapshot and the request parameters to a typed result or a
typed error, mirroring the HTTPException branches of the source.
-/

namespace PeriodPoverty

/-- The typed failure conditions of the analytics layer: the four
HTTPException branches of analytics.py plus the Python ZeroDivisionError
that an unguarded float division would raise. -/
inductive ApiError where
  | InvalidDateFormat
  | NoBasketData
  | NoPriceData
  | NoWelfareData
  | NoHygieneData
  | DivisionByZero
deriving DecidableEq, Repr

/-- A calendar date, as produced by datetime.strptime. -/
structure Date where
  year : Nat
  month : Nat
  day : Nat
deriving DecidableEq, Repr

/-- Injective monotone key for comparing valid calendar dates, standing in
for the comparison SQLAlchemy performs on Date columns (month is at most
12 < 16 and day at most 31 < 32, so the key order agrees with calendar
order on valid dates). -/
def Date.key (dt : Date) : Nat :=
  (dt.year * 16 + dt.month) * 32 + dt.day

/-- Row of the price_index table (models.PriceIndex). -/
structure PriceSample where
  date : Date
  cpi_index : ℚ
  pct_change_mom : Option ℚ
  pct_change_yoy : Option ℚ
deriving DecidableEq, Repr

/-- Row of the income_poverty table (models.IncomePoverty). -/
structure WelfareRec where
  year : Int
  percentile : Int
  avg_welfare : ℚ
  welfare_type : Option String
deriving DecidableEq, Repr

/-- Row of the hygiene_access table (models.HygieneAccess). -/
structure HygieneRow where
  country : String
  year : Int
  indicator : String
  value : ℚ
deriving DecidableEq, Repr

/-- Row of the basket_item table (models.BasketItem). -/
structure BasketItem where
  id : Int
  name : String
  unit_price : ℚ
  units_per_month : ℚ
  currency : String
  notes : Option String
deriving DecidableEq, Repr

/-- A request-scoped basket line (schemas.BasketLine). -/
structure BasketLine where
  name : String
  unit_price : ℚ
  units_per_month : ℚ
  currency : String
  notes : Option String
deriving DecidableEq, Repr

/-- One consistent datastore snapshot: the four tables, each in storage
order. -/
structure Snapshot where
  priceIndex : List PriceSample
  incomePoverty : List WelfareRec
  hygiene : List HygieneRow
  basket : List BasketItem
deriving DecidableEq, Repr

/-- Python round(x, n) on the rationals: scale by 10 ^ n, round to the
nearest integer and scale back.  (Python breaks ties to the even integer
while Mathlib round breaks them upward; every theorem below uses this one
function on both sides of each equation, and every concrete input is
tie-free, so the tie rule never matters.) -/
def roundTo (n : Nat) (x : ℚ) : ℚ :=
  ((round (x * (10 : ℚ) ^ n) : ℤ) : ℚ) / (10 : ℚ) ^ n

/-!
Date Normalizer (parse_month_or_date).  datetime.strptime compiles each
directive to a regular expression — Y to four digits, m to
1[0-2]|0[1-9]|[1-9], d to 3[01]|[12]d|0[1-9]|[1-9] — matches it against a
prefix of the input, rejects the parse when unconverted characters remain,
and finally validates the calendar fields when constructing the datetime
(1 <= year <= 9999, day at most the month length in the proleptic
Gregorian calendar).  Characters are compared through their code points;
48 to 57 are the codes of the digits 0 to 9.
-/

/-- Numeric value of a digit character (code point minus 48). -/
def digitVal (c : Char) : Nat := c.toNat - 48

/-- The regex class d: a decimal digit. -/
def isDig (c : Char) : Bool := decide (48 ≤ c.toNat ∧ c.toNat ≤ 57)

/-- Directive Y: exactly four digits. -/
def parseY : List Char → Option (Nat × List Char)
  | a :: b :: c :: d :: rest =>
    if isDig a ∧ isDig b ∧ isDig c ∧ isDig d then
      some (((digitVal a * 10 + digitVal b) * 10 + digitVal c) * 10 + digitVal d, rest)
    else none
  | _ => none

/-- Directive m: the ordered regex alternatives 1[0-2], 0[1-9], [1-9]. -/
def parseM : List Char → Option (Nat × List Char)
  | a :: b :: rest =>
    if a.toNat = 49 ∧ 48 ≤ b.toNat ∧ b.toNat ≤ 50 then
      some (10 + digitVal b, rest)
    else if a.toNat = 48 ∧ 49 ≤ b.toNat ∧ b.toNat ≤ 57 then
      some (digitVal b, rest)
    else if 49 ≤ a.toNat ∧ a.toNat ≤ 57 then
      some (digitVal a, b :: rest)
    else none
  | [a] =>
    if 49 ≤ a.toNat ∧ a.toNat ≤ 57 then some (digitVal a, []) else none
  | [] => none

/-- Directive d: the ordered regex alternatives 3[01], [12]d, 0[1-9],
[1-9] and the trailing space-padded form, a space (code point 32)
followed by a nonzero digit. -/
def parseD : List Char → Option (Nat × List Char)
  | a :: b :: rest =>
    if a.toNat = 51 ∧ 48 ≤ b.toNat ∧ b.toNat ≤ 49 then
      some (30 + digitVal b, rest)
    else if (49 ≤ a.toNat ∧ a.toNat ≤ 50) ∧ (48 ≤ b.toNat ∧ b.toNat ≤ 57) then
      some (digitVal a * 10 + digitVal b, rest)
    else if a.toNat = 48 ∧ 49 ≤ b.toNat ∧ b.toNat ≤ 57 then
      some (digitVal b, rest)
    else if 49 ≤ a.toNat ∧ a.toNat ≤ 57 then
      some (digitVal a, b :: rest)
    else if a.toNat = 32 ∧ 49 ≤ b.toNat ∧ b.toNat ≤ 57 then
      some (digitVal b, rest)
    else none
  | [a] =>
    if 49 ≤ a.toNat ∧ a.toNat ≤ 57 then some (digitVal a, []) else none
  | [] => none

/-- The literal dash of the format string. -/
def expectDash : List Char → Option (List Char)
  | c :: r => if c = '-' then some r else none
  | [] => none

/-- strptime with format Y-m-d: the three directives joined by literal
dashes, requiring the whole input to be consumed. -/
def tryYMD (l : List Char) : Option (Nat × Nat × Nat) :=
  match parseY l with
  | none => none
  | some (y, r1) =>
    match expectDash r1 with
    | none => none
    | some r2 =>
      match parseM r2 with
      | none => none
      | some (m, r3) =>
        match expectDash r3 with
        | none => none
        | some r4 =>
          match parseD r4 with
          | none => none
          | some (d, r5) => if r5 = [] then some (y, m, d) else none

/-- strptime with format Y-m: two directives joined by a literal dash,
requiring the whole input to be consumed. -/
def tryYM (l : List Char) : Option (Nat × Nat) :=
  match parseY l with
  | none => none
  | some (y, r1) =>
    match expectDash r1 with
    | none => none
    | some r2 =>
      match parseM r2 with
      | none => none
      | some (m, r3) => if r3 = [] then some (y, m) else none

/-- Leap year test of the proleptic Gregorian calendar. -/
def isLeap (y : Nat) : Bool :=
  decide ((y % 4 = 0 ∧ y % 100 ≠ 0) ∨ y % 400 = 0)

/-- Number of days of month m in year y. -/
def daysInMonth (y m : Nat) : Nat :=
  if m = 2 then (if isLeap y then 29 else 28)
  else if m = 4 ∨ m = 6 ∨ m = 9 ∨ m = 11 then 30
  else 31

/-- The calendar-field validation the datetime constructor performs. -/
def validDateB (y m d : Nat) : Bool :=
  decide (1 ≤ y ∧ y ≤ 9999 ∧ 1 ≤ m ∧ m ≤ 12 ∧ 1 ≤ d ∧ d ≤ daysInMonth y m)

/-- Second attempt of the parser loop: strptime with Y-m, normalized to
the first day of the month. -/
def fallbackYM (s : String) : Except ApiError Date :=
  match tryYM s.data with
  | some (y, m) =>
    if validDateB y m 1 then Except.ok ⟨y, m, 1⟩ else Except.error ApiError.InvalidDateFormat
  | none => Except.error ApiError.InvalidDateFormat

/-- The Date Normalizer: try strptime with Y-m-d, then with Y-m
(normalizing to the first of the month), else raise the 400 error. -/
def parse_month_or_date (s : String) : Except ApiError Date :=
  match tryYMD s.data with
  | some (y, m, d) =>
    if validDateB y m d then Except.ok ⟨y, m, d⟩ else fallbackYM s
  | none => fallbackYM s

/-- Numeric value of a digit string, most significant digit first. -/
def natOfDigits (l : List Char) : Nat :=
  l.foldl (fun a c => a * 10 + digitVal c) 0

/-- A list of digit characters. -/
def isDigits (l : List Char) : Prop := ∀ c ∈ l, isDig c = true

instance (l : List Char) : Decidable (isDigits l) := by
  unfold isDigits; infer_instance

/-- Modelled from the wording of the spec: a string that matches the
pattern YYYY-MM-DD exactly, read as four digits, dash, two digits, dash,
two digits. -/
def strictYMD (s : String) : Option (Nat × Nat × Nat) :=
  match s.data with
  | [a, b, c, d, '-', e, f, '-', g, h] =>
    if isDigits [a, b, c, d, e, f, g, h] then
      some (natOfDigits [a, b, c, d], natOfDigits [e, f], natOfDigits [g, h])
    else none
  | _ => none

/-- Modelled from the wording of the spec: a string that matches the
pattern YYYY-MM exactly, read as four digits, dash, two digits. -/
def strictYM (s : String) : Option (Nat × Nat) :=
  match s.data with
  | [a, b, c, d, '-', e, f] =>
    if isDigits [a, b, c, d, e, f] then
      some (natOfDigits [a, b, c, d], natOfDigits [e, f])
    else none
  | _ => none

/-- The day strings directive d accepts: one or two digits with value 1
to 31, or the space-padded form, a space (code point 32) followed by one
nonzero digit. -/
def dayToken (ds : List Char) (d : Nat) : Prop :=
  (isDigits ds ∧ (ds.length = 1 ∨ ds.length = 2) ∧
    natOfDigits ds = d ∧ 1 ≤ d ∧ d ≤ 31) ∨
  (∃ c0 c, ds = [c0, c] ∧ c0.toNat = 32 ∧ 49 ≤ c.toNat ∧ c.toNat ≤ 57 ∧
    digitVal c = d)

/-- The relaxed date pattern that the strptime regexes actually accept:
four year digits, a dash, one or two month digits with value 1 to 12, a
dash, and a day token (one or two day digits with value 1 to 31, or a
space-padded nonzero digit). -/
def relaxedYMD (s : String) (y m d : Nat) : Prop :=
  ∃ ys ms ds : List Char,
    s.data = ys ++ '-' :: (ms ++ '-' :: ds) ∧
    isDigits ys ∧ isDigits ms ∧
    ys.length = 4 ∧ (ms.length = 1 ∨ ms.length = 2) ∧
    natOfDigits ys = y ∧ natOfDigits ms = m ∧
    1 ≤ m ∧ m ≤ 12 ∧ dayToken ds d

/-- The relaxed month pattern that the strptime regexes actually accept:
four year digits, a dash, and one or two month digits with value 1 to
12. -/
def relaxedYM (s : String) (y m : Nat) : Prop :=
  ∃ ys ms : List Char,
    s.data = ys ++ '-' :: ms ∧
    isDigits ys ∧ isDigits ms ∧
    ys.length = 4 ∧ (ms.length = 1 ∨ ms.length = 2) ∧
    natOfDigits ys = y ∧ natOfDigits ms = m ∧
    1 ≤ m ∧ m ≤ 12

/-!
The four analytics operations.  SQL queries over a table become list
operations over the snapshot: an unordered filter-plus-first becomes
List.find?, order_by becomes insertionSort on the date key, and func.max
becomes a fold over the year column.
-/

/-- Ascending date order on price rows (order_by date asc). -/
def sampleLe (a b : PriceSample) : Prop := a.date.key ≤ b.date.key

instance : DecidableRel sampleLe := fun a b => by unfold sampleLe; infer_instance

instance : IsTotal PriceSample sampleLe :=
  ⟨fun a b => Nat.le_total a.date.key b.date.key⟩

instance : IsTrans PriceSample sampleLe :=
  ⟨fun _ _ _ h1 h2 => Nat.le_trans h1 h2⟩

/-- Descending date order on price rows (order_by date desc). -/
def sampleGe (a b : PriceSample) : Prop := b.date.key ≤ a.date.key

instance : DecidableRel sampleGe := fun a b => by unfold sampleGe; infer_instance

instance : IsTotal PriceSample sampleGe :=
  ⟨fun a b => Nat.le_total b.date.key a.date.key⟩

instance : IsTrans PriceSample sampleGe :=
  ⟨fun _ _ _ h1 h2 => Nat.le_trans h2 h1⟩

/-- One point of the trend response (schemas.InflationTrendPoint). -/
structure InflationTrendPoint where
  date : Date
  cpi_index : ℚ
  pct_change_yoy : Option ℚ
deriving DecidableEq, Repr

/-- The lower-bound filter of inflation_trend: Python skips it when the
query value is absent or the empty string (falsy), otherwise normalizes
the string and keeps the rows dated on or after it. -/
def filterFrom (fromP : Option String) (rows : List PriceSample) :
    Except ApiError (List PriceSample) :=
  match fromP with
  | none => Except.ok rows
  | some s =>
    if s = "" then Except.ok rows
    else
      match parse_month_or_date s with
      | Except.error e => Except.error e
      | Except.ok st => Except.ok (rows.filter fun r => decide (st.key ≤ r.date.key))

/-- The upper-bound filter of inflation_trend, symmetric to filterFrom. -/
def filterTo (toP : Option String) (rows : List PriceSample) :
    Except ApiError (List PriceSample) :=
  match toP with
  | none => Except.ok rows
  | some s =>
    if s = "" then Except.ok rows
    else
      match parse_month_or_date s with
      | Except.error e => Except.error e
      | Except.ok en => Except.ok (rows.filter fun r => decide (r.date.key ≤ en.key))

/-- Trend Extractor (GET inflation-trend): apply both optional bound
filters, sort ascending by date and project each row to a trend point. -/
def inflation_trend (snap : Snapshot) (fromP toP : Option String) :
    Except ApiError (List InflationTrendPoint) :=
  match filterFrom fromP snap.priceIndex with
  | Except.error e => Except.error e
  | Except.ok rows1 =>
    match filterTo toP rows1 with
    | Except.error e => Except.error e
    | Except.ok rows2 =>
      Except.ok ((List.insertionSort sampleLe rows2).map fun r =>
        ⟨r.date, r.cpi_index, r.pct_change_yoy⟩)

/-- Request body of cost-estimate (schemas.CostEstimateRequest). -/
structure CostEstimateRequest where
  lines : Option (List BasketLine)
  apply_yoy_cpi : Bool
deriving DecidableEq, Repr

/-- Response of cost-estimate (schemas.CostEstimateResponse). -/
structure CostEstimateResponse where
  monthly_cost : ℚ
  annual_cost : ℚ
  used_lines : List BasketLine
deriving DecidableEq, Repr

/-- The field-by-field conversion of a stored BasketItem row to a
request-level BasketLine that cost_estimate performs. -/
def basketItemToLine (i : BasketItem) : BasketLine :=
  ⟨i.name, i.unit_price, i.units_per_month, i.currency, i.notes⟩

/-- Helper sum_basket_lines: monthly total of a sequence of lines. -/
def sum_basket_lines (lines : List BasketLine) : ℚ :=
  (lines.map fun li => li.unit_price * li.units_per_month).sum

/-- Step 1 of cost_estimate: caller lines when one or more are supplied
(a None or empty list is falsy in Python), else all stored rows. -/
def resolve_lines (snap : Snapshot) (payload : CostEstimateRequest) :
    List BasketLine :=
  match payload.lines with
  | some ls => if ls.length > 0 then ls else snap.basket.map basketItemToLine
  | none => snap.basket.map basketItemToLine

/-- The query order_by(PriceIndex.date.desc()).first(): head of the rows
sorted by descending date. -/
def latestPrice (rows : List PriceSample) : Option PriceSample :=
  (List.insertionSort sampleGe rows).head?

/-- Cost Estimator (POST cost-estimate): resolve the basket source, total
it, optionally apply the latest year-over-year uplift (a missing yoy value
read as 0 by the Python or-default), annualize and round. -/
def cost_estimate (snap : Snapshot) (payload : CostEstimateRequest) :
    Except ApiError CostEstimateResponse :=
  let lines := resolve_lines snap payload
  if lines = [] then Except.error ApiError.NoBasketData
  else
    let monthly := sum_basket_lines lines
    if payload.apply_yoy_cpi then
      match latestPrice snap.priceIndex with
      | none => Except.error ApiError.NoPriceData
      | some latest =>
        let yoy := latest.pct_change_yoy.getD 0
        let monthly2 := monthly * (1 + yoy / 100)
        Except.ok ⟨roundTo 2 monthly2, roundTo 2 (monthly2 * 12), lines⟩
    else
      Except.ok ⟨roundTo 2 monthly, roundTo 2 (monthly * 12), lines⟩

/-- The welfare lookup of cost_burden and severity_score: first stored
row of income_poverty with the requested year and percentile. -/
def findWelfare (snap : Snapshot) (year percentile : Int) : Option WelfareRec :=
  snap.incomePoverty.find? fun w =>
    decide (w.year = year ∧ w.percentile = percentile)

/-- Division returning none exactly when the denominator is zero, the
case in which the Python float division would raise ZeroDivisionError. -/
def divChecked (a b : ℚ) : Option ℚ :=
  if b = 0 then none else some (a / b)

/-- The guarded burden ratio of cost_burden and severity_score: the
division runs only under the strict positivity test, else the saturating
value 0. -/
def burdenRatioChecked (annual_cost avg_annual : ℚ) : Option ℚ :=
  if 0 < avg_annual then divChecked annual_cost avg_annual else some 0

/-- Response of cost-burden (schemas.CostBurdenResponse). -/
structure CostBurdenResponse where
  year : Int
  percentile : Int
  annual_cost : ℚ
  avg_welfare_annual_ppp : ℚ
  burden_ratio : ℚ
deriving DecidableEq, Repr

/-- Burden Calculator (GET cost-burden): annual cost of the stored basket
against the annualized welfare of the requested year and percentile. -/
def cost_burden (snap : Snapshot) (year percentile : Int) :
    Except ApiError CostBurdenResponse :=
  if snap.basket = [] then Except.error ApiError.NoBasketData
  else
    let annual_cost := (snap.basket.map fun i => i.unit_price * i.units_per_month).sum * 12
    match findWelfare snap year percentile with
    | none => Except.error ApiError.NoWelfareData
    | some w =>
      let avg_annual := w.avg_welfare * 365
      match burdenRatioChecked annual_cost avg_annual with
      | none => Except.error ApiError.DivisionByZero
      | some br =>
        Except.ok ⟨year, percentile, roundTo 2 annual_cost, roundTo 2 avg_annual,
          roundTo 4 br⟩

/-- The query func.max(HygieneAccess.year) over the snapshot. -/
def maxHygieneYear : List HygieneRow → Option Int
  | [] => none
  | h :: t =>
    match maxHygieneYear t with
    | none => some h.year
    | some m => some (max h.year m)

/-- The hygiene reference year: Python evaluates latest_year or year, so
the requested year is used when the table is empty (None) and also when
the maximum stored year is the falsy integer 0. -/
def hygieneRefYear (snap : Snapshot) (year : Int) : Int :=
  match maxHygieneYear snap.hygiene with
  | none => year
  | some m => if m = 0 then year else m

/-- The hygiene lookup of severity_score: first stored row whose year is
the reference year. -/
def findHygiene (snap : Snapshot) (year : Int) : Option HygieneRow :=
  snap.hygiene.find? fun h => decide (h.year = hygieneRefYear snap year)

/-- Response of severity-score (schemas.SeverityScoreResponse). -/
structure SeverityScoreResponse where
  year : Int
  annual_cost : ℚ
  avg_welfare_annual_ppp : ℚ
  burden_ratio : ℚ
  hygiene_value_pct : ℚ
  hygiene_severity : ℚ
  combined_severity : ℚ
deriving DecidableEq, Repr

/-- Severity Composer (GET severity-score): the burden computation of
cost_burden followed by the hygiene deficit and the fixed 0.7/0.3
blend. -/
def severity_score (snap : Snapshot) (year percentile : Int) :
    Except ApiError SeverityScoreResponse :=
  if snap.basket = [] then Except.error ApiError.NoBasketData
  else
    let annual_cost := (snap.basket.map fun i => i.unit_price * i.units_per_month).sum * 12
    match findWelfare snap year percentile with
    | none => Except.error ApiError.NoWelfareData
    | some w =>
      let avg_annual := w.avg_welfare * 365
      match burdenRatioChecked annual_cost avg_annual with
      | none => Except.error ApiError.DivisionByZero
      | some br =>
        match findHygiene snap year with
        | none => Except.error ApiError.NoHygieneData
        | some hrow =>
          let hygiene_value := hrow.value
          let hs := 1 - hygiene_value / 100
          let combined := (7 / 10 : ℚ) * br + (3 / 10 : ℚ) * hs
          Except.ok ⟨w.year, roundTo 2 annual_cost, roundTo 2 avg_annual,
            roundTo 4 br, roundTo 1 hygiene_value, roundTo 4 hs, roundTo 4 combined⟩

/-!
Concrete snapshots used by the witnesses and counterexamples below.
-/

/-- A basket of one stored line: pads at 5/2 a pack, two packs a month. -/
def itemPads : BasketItem := ⟨1, "pads", 5 / 2, 2, "GBP", none⟩

/-- A representative well-populated snapshot. -/
def snapStd : Snapshot :=
  ⟨[⟨⟨2025, 1, 1⟩, 110, some 1, some 10⟩, ⟨⟨2024, 1, 1⟩, 100, none, none⟩],
   [⟨2018, 20, 10, none⟩],
   [⟨"UK", 2018, "bathing", 99⟩],
   [itemPads]⟩

/-- A snapshot whose only welfare row has daily welfare 0. -/
def snapZeroW : Snapshot :=
  ⟨[], [⟨2018, 20, 0, none⟩], [⟨"UK", 2018, "bathing", 50⟩], [itemPads]⟩

/-- A snapshot whose only welfare row has negative daily welfare. -/
def snapNegW : Snapshot :=
  ⟨[], [⟨2018, 20, -1, none⟩], [⟨"UK", 2018, "bathing", 50⟩], [itemPads]⟩

/-- Two hygiene rows for the same year, one storage order. -/
def snapOrdA : Snapshot :=
  ⟨[], [⟨2018, 20, 10, none⟩],
   [⟨"UK", 2018, "a", 50⟩, ⟨"UK", 2018, "b", 80⟩], [itemPads]⟩

/-- The same rows as snapOrdA in the other storage order. -/
def snapOrdB : Snapshot :=
  ⟨[], [⟨2018, 20, 10, none⟩],
   [⟨"UK", 2018, "b", 80⟩, ⟨"UK", 2018, "a", 50⟩], [itemPads]⟩

/-- A nonempty hygiene table whose maximum year is the falsy integer 0. -/
def snapYearZero : Snapshot :=
  ⟨[], [⟨2018, 20, 10, none⟩], [⟨"UK", 0, "a", 50⟩], [itemPads]⟩

/-- A snapshot for exercising the trend range: one sample one day before
2024-01-01, one exactly on it, one at 2025-01-01. -/
def snapTrend : Snapshot :=
  ⟨[⟨⟨2024, 1, 1⟩, 101, none, some 2⟩, ⟨⟨2023, 12, 31⟩, 100, none, none⟩,
    ⟨⟨2025, 1, 1⟩, 103, some 1, some 3⟩], [], [], []⟩

/-- Ascending date order on trend points, for stating sortedness of the
trend output. -/
def trendLe (a b : InflationTrendPoint) : Prop := a.date.key ≤ b.date.key

/-- An optional request bound together with the date the Date Normalizer
gives it: absent on both sides, or present and normalized successfully. -/
def boundOk : Option String → Option Date → Prop
  | none, none => True
  | some s, some dt => parse_month_or_date s = Except.ok dt
  | none, some _ => False
  | some _, none => False

/-- Membership of a sample in the inclusive requested range: an omitted
bound imposes no restriction on its side. -/
def inRangeB (lo hi : Option Date) (r : PriceSample) : Bool :=
  (match lo with
   | none => true
   | some dt => decide (dt.key ≤ r.date.key)) &&
  (match hi with
   | none => true
   | some dt => decide (r.date.key ≤ dt.key))

/-!
Theorems.  First the rounding lemmas and other helpers shared by several
claims, then the claims themselves.
-/

theorem roundTo_zero (n : Nat) : roundTo n 0 = 0 := by
  simp [roundTo]

theorem roundTo_mono (n : Nat) {x y : ℚ} (h : x ≤ y) :
    roundTo n x ≤ roundTo n y := by
  have hp : (0 : ℚ) < (10 : ℚ) ^ n := by positivity
  have hr : round (x * (10 : ℚ) ^ n) ≤ round (y * (10 : ℚ) ^ n) := by
    rw [round_eq, round_eq]
    have hm : x * (10 : ℚ) ^ n ≤ y * (10 : ℚ) ^ n :=
      mul_le_mul_of_nonneg_right h (le_of_lt hp)
    exact Int.floor_mono (by linarith)
  unfold roundTo
  have hr' : ((round (x * (10 : ℚ) ^ n) : ℤ) : ℚ) ≤ ((round (y * (10 : ℚ) ^ n) : ℤ) : ℚ) := by
    exact_mod_cast hr
  exact div_le_div_of_nonneg_right hr' hp.le

theorem roundTo_nonneg {n : Nat} {x : ℚ} (h : 0 ≤ x) : 0 ≤ roundTo n x := by
  have := roundTo_mono n h
  rwa [roundTo_zero] at this

theorem roundTo_one (n : Nat) : roundTo n 1 = 1 := by
  unfold roundTo
  rw [one_mul]
  have h10 : ((10 : ℚ) ^ n) = (((10 : ℤ) ^ n : ℤ) : ℚ) := by push_cast; ring
  rw [h10, round_intCast]
  have : ((10 : ℤ) ^ n : ℚ) ≠ 0 := by positivity
  field_simp

theorem roundTo_le_one {n : Nat} {x : ℚ} (h : x ≤ 1) : roundTo n x ≤ 1 := by
  have := roundTo_mono n h
  rwa [roundTo_one] at this

/-- The burden-ratio guard always yields a value: the strict positivity
test keeps the division away from a zero denominator. -/
theorem burdenRatioChecked_eq (a b : ℚ) :
    burdenRatioChecked a b = some (if 0 < b then a / b else 0) := by
  unfold burdenRatioChecked divChecked
  by_cases h : 0 < b
  · rw [if_pos h, if_neg (ne_of_gt h), if_pos h]
  · rw [if_neg h, if_neg h]

/-- Closed form of the Burden Calculator on any snapshot with a nonempty
basket and a matching welfare row. -/
theorem cost_burden_eq (snap : Snapshot) (year percentile : Int) (w : WelfareRec)
    (hb : snap.basket ≠ [])
    (hw : findWelfare snap year percentile = some w) :
    cost_burden snap year percentile =
      Except.ok ⟨year, percentile,
        roundTo 2 ((snap.basket.map fun i => i.unit_price * i.units_per_month).sum * 12),
        roundTo 2 (w.avg_welfare * 365),
        roundTo 4 (if 0 < w.avg_welfare * 365 then
          ((snap.basket.map fun i => i.unit_price * i.units_per_month).sum * 12)
            / (w.avg_welfare * 365)
          else 0)⟩ := by
  simp only [cost_burden, if_neg hb, hw, burdenRatioChecked_eq]

/-- Closed form of the Severity Composer on any snapshot with a nonempty
basket, a matching welfare row and a hygiene row for the reference
year. -/
theorem severity_score_eq (snap : Snapshot) (year percentile : Int)
    (w : WelfareRec) (hrow : HygieneRow)
    (hb : snap.basket ≠ [])
    (hw : findWelfare snap year percentile = some w)
    (hh : findHygiene snap year = some hrow) :
    severity_score snap year percentile =
      Except.ok ⟨w.year,
        roundTo 2 ((snap.basket.map fun i => i.unit_price * i.units_per_month).sum * 12),
        roundTo 2 (w.avg_welfare * 365),
        roundTo 4 (if 0 < w.avg_welfare * 365 then
          ((snap.basket.map fun i => i.unit_price * i.units_per_month).sum * 12)
            / (w.avg_welfare * 365)
          else 0),
        roundTo 1 hrow.value,
        roundTo 4 (1 - hrow.value / 100),
        roundTo 4 ((7 / 10 : ℚ) *
          (if 0 < w.avg_welfare * 365 then
            ((snap.basket.map fun i => i.unit_price * i.units_per_month).sum * 12)
              / (w.avg_welfare * 365)
            else 0) + (3 / 10 : ℚ) * (1 - hrow.value / 100))⟩ := by
  simp only [severity_score, if_neg hb, hw, burdenRatioChecked_eq, hh]

/-!
C1 through C10: the claims.
-/

/-- C1: with a nonempty stored basket and a welfare row for the requested
year and percentile whose annualized welfare is strictly positive, the
Burden Calculator returns the rounded unadjusted annual basket cost, the
rounded annualized welfare, and their ratio rounded to 4 decimals. -/
theorem cost_burden_formula (snap : Snapshot) (year percentile : Int)
    (w : WelfareRec)
    (hb : snap.basket ≠ [])
    (hw : findWelfare snap year percentile = some w)
    (hpos : 0 < w.avg_welfare * 365) :
    cost_burden snap year percentile =
      Except.ok ⟨year, percentile,
        roundTo 2 ((snap.basket.map fun i => i.unit_price * i.units_per_month).sum * 12),
        roundTo 2 (w.avg_welfare * 365),
        roundTo 4 (((snap.basket.map fun i => i.unit_price * i.units_per_month).sum * 12)
          / (w.avg_welfare * 365))⟩ := by
  rw [cost_burden_eq snap year percentile w hb hw, if_pos hpos]

/-- Witness for C1 at a concrete snapshot: one stored line priced 5/2
taken twice a month, welfare 10 a day at (2018, 20). -/
theorem cost_burden_formula_witness :
    cost_burden ⟨[], [⟨2018, 20, 10, none⟩], [], [⟨1, "pads", 5 / 2, 2, "GBP", none⟩]⟩ 2018 20 =
      Except.ok ⟨2018, 20,
        roundTo 2 (((([⟨1, "pads", 5 / 2, 2, "GBP", none⟩] : List BasketItem).map
          fun i => i.unit_price * i.units_per_month).sum) * 12),
        roundTo 2 ((10 : ℚ) * 365),
        roundTo 4 ((((([⟨1, "pads", 5 / 2, 2, "GBP", none⟩] : List BasketItem).map
          fun i => i.unit_price * i.units_per_month).sum) * 12) / ((10 : ℚ) * 365))⟩ :=
  cost_burden_formula ⟨[], [⟨2018, 20, 10, none⟩], [], [⟨1, "pads", 5 / 2, 2, "GBP", none⟩]⟩
    2018 20 ⟨2018, 20, 10, none⟩ (by decide) (by decide) (by norm_num)

/-- The Burden Calculator can never reach the division-error branch. -/
theorem cost_burden_ne_divzero (snap : Snapshot) (year percentile : Int) :
    cost_burden snap year percentile ≠ Except.error ApiError.DivisionByZero := by
  unfold cost_burden
  split
  · intro h; cases h
  · rcases hfw : findWelfare snap year percentile with _ | w <;>
      simp [hfw, burdenRatioChecked_eq]

/-- The Severity Composer can never reach the division-error branch. -/
theorem severity_score_ne_divzero (snap : Snapshot) (year percentile : Int) :
    severity_score snap year percentile ≠ Except.error ApiError.DivisionByZero := by
  unfold severity_score
  split
  · intro h; cases h
  · rcases hfw : findWelfare snap year percentile with _ | w
    · simp [hfw]
    · rcases hfh : findHygiene snap year with _ | hrow <;>
        simp [hfw, hfh, burdenRatioChecked_eq]

/-- C5: a welfare row whose annualized welfare is zero yields burden
ratio 0 in both the Burden Calculator and the Severity Composer, and in
every snapshot the division runs only under the strict-positivity guard,
so the division-by-zero error branch is unreachable in both. -/
theorem burden_zero_guard (snap : Snapshot) (year percentile : Int) :
    cost_burden snap year percentile ≠ Except.error ApiError.DivisionByZero ∧
    severity_score snap year percentile ≠ Except.error ApiError.DivisionByZero ∧
    (∀ w : WelfareRec, snap.basket ≠ [] →
      findWelfare snap year percentile = some w →
      w.avg_welfare * 365 = 0 →
      ∃ r, cost_burden snap year percentile = Except.ok r ∧ r.burden_ratio = 0) ∧
    (∀ (w : WelfareRec) (hrow : HygieneRow), snap.basket ≠ [] →
      findWelfare snap year percentile = some w →
      findHygiene snap year = some hrow →
      w.avg_welfare * 365 = 0 →
      ∃ r, severity_score snap year percentile = Except.ok r ∧
        r.burden_ratio = 0) := by
  refine ⟨cost_burden_ne_divzero snap year percentile,
    severity_score_ne_divzero snap year percentile, ?_, ?_⟩
  · intro w hb hw hz
    refine ⟨_, cost_burden_eq snap year percentile w hb hw, ?_⟩
    have : ¬ 0 < w.avg_welfare * 365 := by rw [hz]; exact lt_irrefl 0
    simp only [if_neg this]
    exact roundTo_zero 4
  · intro w hrow hb hw hh hz
    refine ⟨_, severity_score_eq snap year percentile w hrow hb hw hh, ?_⟩
    have : ¬ 0 < w.avg_welfare * 365 := by rw [hz]; exact lt_irrefl 0
    simp only [if_neg this]
    exact roundTo_zero 4

/-- Witness for C5: the zero-welfare snapshot reaches the saturating
branch in both routes and each returns burden ratio 0; neither route can
fail with the division error there. -/
theorem burden_zero_guard_witness :
    cost_burden snapZeroW 2018 20 ≠ Except.error ApiError.DivisionByZero ∧
    severity_score snapZeroW 2018 20 ≠ Except.error ApiError.DivisionByZero ∧
    (∃ r, cost_burden snapZeroW 2018 20 = Except.ok r ∧ r.burden_ratio = 0) ∧
    (∃ r, severity_score snapZeroW 2018 20 = Except.ok r ∧
      r.burden_ratio = 0) :=
  ⟨(burden_zero_guard snapZeroW 2018 20).1,
    (burden_zero_guard snapZeroW 2018 20).2.1,
    (burden_zero_guard snapZeroW 2018 20).2.2.1 ⟨2018, 20, 0, none⟩
      (by decide) (by decide) (by norm_num),
    (burden_zero_guard snapZeroW 2018 20).2.2.2 ⟨2018, 20, 0, none⟩
      ⟨"UK", 2018, "bathing", 50⟩ (by decide) (by decide) (by decide)
      (by norm_num)⟩

/-- C9: the guard tests strict positivity, not inequality with zero, so a
strictly negative annualized welfare also returns burden ratio 0 (in both
the Burden Calculator and the Severity Composer) without dividing. -/
theorem burden_nonpositive_welfare (snap : Snapshot) (year percentile : Int)
    (w : WelfareRec)
    (hb : snap.basket ≠ [])
    (hw : findWelfare snap year percentile = some w)
    (hnp : w.avg_welfare * 365 ≤ 0) :
    (∃ r, cost_burden snap year percentile = Except.ok r ∧ r.burden_ratio = 0) ∧
    (∀ hrow, findHygiene snap year = some hrow →
      ∃ r, severity_score snap year percentile = Except.ok r ∧ r.burden_ratio = 0) := by
  have hneg : ¬ 0 < w.avg_welfare * 365 := not_lt.mpr hnp
  constructor
  · refine ⟨_, cost_burden_eq snap year percentile w hb hw, ?_⟩
    simp only [if_neg hneg]
    exact roundTo_zero 4
  · intro hrow hh
    refine ⟨_, severity_score_eq snap year percentile w hrow hb hw hh, ?_⟩
    simp only [if_neg hneg]
    exact roundTo_zero 4

/-- Witness for C9 at the negative-welfare snapshot: daily welfare -1, so
annualized welfare -365 < 0, and both routes return burden ratio 0. -/
theorem burden_nonpositive_welfare_witness :
    (∃ r, cost_burden snapNegW 2018 20 = Except.ok r ∧ r.burden_ratio = 0) ∧
    (∃ r, severity_score snapNegW 2018 20 = Except.ok r ∧ r.burden_ratio = 0) := by
  have h := burden_nonpositive_welfare snapNegW 2018 20 ⟨2018, 20, -1, none⟩
    (by decide) (by decide) (by norm_num)
  exact ⟨h.1, h.2 ⟨"UK", 2018, "bathing", 50⟩ (by decide)⟩

/-- C2: the Severity Composer returns hygiene severity
1 - value / 100 and combined severity 0.7 burden + 0.3 hygiene severity
(value rounded to 1 decimal, the severities to 4); for a value between 0
and 100 the hygiene severity lies between 0 and 1, and a nonnegative
burden ratio gives a nonnegative combined severity. -/
theorem severity_formula_bounds (snap : Snapshot) (year percentile : Int)
    (w : WelfareRec) (hrow : HygieneRow)
    (hb : snap.basket ≠ [])
    (hw : findWelfare snap year percentile = some w)
    (hh : findHygiene snap year = some hrow) :
    ∃ r br, severity_score snap year percentile = Except.ok r ∧
      burdenRatioChecked ((snap.basket.map fun i => i.unit_price * i.units_per_month).sum * 12)
        (w.avg_welfare * 365) = some br ∧
      r.hygiene_value_pct = roundTo 1 hrow.value ∧
      r.hygiene_severity = roundTo 4 (1 - hrow.value / 100) ∧
      r.combined_severity =
        roundTo 4 ((7 / 10 : ℚ) * br + (3 / 10 : ℚ) * (1 - hrow.value / 100)) ∧
      (0 ≤ hrow.value → hrow.value ≤ 100 →
        0 ≤ r.hygiene_severity ∧ r.hygiene_severity ≤ 1) ∧
      (0 ≤ br → hrow.value ≤ 100 → 0 ≤ r.combined_severity) := by
  refine ⟨_, _, severity_score_eq snap year percentile w hrow hb hw hh,
    burdenRatioChecked_eq _ _, rfl, rfl, rfl, ?_, ?_⟩
  · intro h0 h100
    constructor
    · exact roundTo_nonneg (by linarith)
    · exact roundTo_le_one (by linarith)
  · intro hbr h100
    exact roundTo_nonneg (by nlinarith)

/-- Witness for C2 at the standard snapshot: hygiene value 99. -/
theorem severity_formula_bounds_witness :
    ∃ r br, severity_score snapStd 2018 20 = Except.ok r ∧
      burdenRatioChecked ((snapStd.basket.map fun i => i.unit_price * i.units_per_month).sum * 12)
        ((10 : ℚ) * 365) = some br ∧
      r.hygiene_value_pct = roundTo 1 99 ∧
      r.hygiene_severity = roundTo 4 (1 - (99 : ℚ) / 100) ∧
      r.combined_severity =
        roundTo 4 ((7 / 10 : ℚ) * br + (3 / 10 : ℚ) * (1 - (99 : ℚ) / 100)) ∧
      (0 ≤ (99 : ℚ) → (99 : ℚ) ≤ 100 →
        0 ≤ r.hygiene_severity ∧ r.hygiene_severity ≤ 1) ∧
      (0 ≤ br → (99 : ℚ) ≤ 100 → 0 ≤ r.combined_severity) :=
  severity_formula_bounds snapStd 2018 20 ⟨2018, 20, 10, none⟩ ⟨"UK", 2018, "bathing", 99⟩
    (by decide) (by decide) (by decide)

/-- The resolved basket is empty exactly when the caller supplied nothing
(absent or empty) and the store is empty. -/
theorem resolve_lines_eq_nil_iff (snap : Snapshot) (payload : CostEstimateRequest) :
    resolve_lines snap payload = [] ↔
      ((payload.lines = none ∨ payload.lines = some []) ∧ snap.basket = []) := by
  unfold resolve_lines
  rcases hl : payload.lines with _ | ls
  · simp [List.map_eq_nil_iff]
  · rcases ls with _ | ⟨a, t⟩
    · simp [List.map_eq_nil_iff]
    · simp

/-- C4: the Cost Estimator fails with NoBasketData exactly when the
caller supplies no lines and the store is empty, and otherwise echoes the
caller lines verbatim when given, else the converted stored rows; the
Burden Calculator fails with NoWelfareData exactly when the stored basket
is nonempty and no welfare row matches the requested year and
percentile. -/
theorem basket_and_welfare_resolution (snap : Snapshot) (payload : CostEstimateRequest)
    (year percentile : Int) :
    ((cost_estimate snap payload = Except.error ApiError.NoBasketData) ↔
      ((payload.lines = none ∨ payload.lines = some []) ∧ snap.basket = [])) ∧
    (∀ ls r, payload.lines = some ls → ls ≠ [] →
      cost_estimate snap payload = Except.ok r → r.used_lines = ls) ∧
    (∀ r, (payload.lines = none ∨ payload.lines = some []) →
      cost_estimate snap payload = Except.ok r →
      r.used_lines = snap.basket.map basketItemToLine) ∧
    ((cost_burden snap year percentile = Except.error ApiError.NoWelfareData) ↔
      (snap.basket ≠ [] ∧ findWelfare snap year percentile = none)) := by
  have hused : ∀ r, cost_estimate snap payload = Except.ok r →
      r.used_lines = resolve_lines snap payload := by
    intro r hr
    simp only [cost_estimate] at hr
    by_cases hnil : resolve_lines snap payload = []
    · rw [if_pos hnil] at hr; cases hr
    · rw [if_neg hnil] at hr
      by_cases hflag : payload.apply_yoy_cpi = true
      · rw [if_pos hflag] at hr
        rcases hlp : latestPrice snap.priceIndex with _ | latest <;> rw [hlp] at hr
        · cases hr
        · cases hr; rfl
      · rw [if_neg hflag] at hr
        cases hr; rfl
  refine ⟨?_, ?_, ?_, ?_⟩
  · rw [← resolve_lines_eq_nil_iff]
    constructor
    · intro h
      by_contra hne
      simp only [cost_estimate] at h
      rw [if_neg hne] at h
      by_cases hflag : payload.apply_yoy_cpi = true
      · rw [if_pos hflag] at h
        rcases hlp : latestPrice snap.priceIndex with _ | latest <;> rw [hlp] at h
        · cases h
        · cases h
      · rw [if_neg hflag] at h
        cases h
    · intro h
      simp only [cost_estimate]
      rw [if_pos h]
  · intro ls r hls hne hr
    rw [hused r hr]
    simp only [resolve_lines, hls]
    rw [if_pos (by simpa [List.length_pos] using hne)]
  · intro r hcase hr
    rw [hused r hr]
    rcases hcase with h | h <;> simp only [resolve_lines, h]
    simp
  · constructor
    · intro h
      by_cases hb : snap.basket = []
      · unfold cost_burden at h; rw [if_pos hb] at h; cases h
      · refine ⟨hb, ?_⟩
        rcases hfw : findWelfare snap year percentile with _ | w
        · rfl
        · rw [cost_burden_eq snap year percentile w hb hfw] at h; cases h
    · rintro ⟨hb, hfw⟩
      unfold cost_burden
      rw [if_neg hb, hfw]

/-- Witness for C4: with a caller-supplied line the estimator echoes it,
and on the empty snapshot with no caller lines it fails with
NoBasketData. -/
theorem basket_and_welfare_resolution_witness :
    (cost_estimate ⟨[], [], [], []⟩ ⟨none, false⟩ = Except.error ApiError.NoBasketData) ∧
    (∀ r, cost_estimate snapStd ⟨some [⟨"pads pack", 5 / 2, 2, "GBP", none⟩], false⟩ =
      Except.ok r → r.used_lines = [⟨"pads pack", 5 / 2, 2, "GBP", none⟩]) ∧
    (cost_burden ⟨[], [], [], [itemPads]⟩ 2018 20 = Except.error ApiError.NoWelfareData) :=
  ⟨(basket_and_welfare_resolution ⟨[], [], [], []⟩ ⟨none, false⟩ 2018 20).1.mpr
      ⟨Or.inl rfl, rfl⟩,
   fun r hr => (basket_and_welfare_resolution snapStd
      ⟨some [⟨"pads pack", 5 / 2, 2, "GBP", none⟩], false⟩ 2018 20).2.1
      [⟨"pads pack", 5 / 2, 2, "GBP", none⟩] r rfl (by decide) hr,
   (basket_and_welfare_resolution ⟨[], [], [], [itemPads]⟩ ⟨none, false⟩ 2018 20).2.2.2.mpr
      ⟨by decide, by decide⟩⟩

/-- A descending-sorted query head dominates every row of the table. -/
theorem latestPrice_max (rows : List PriceSample) (latest : PriceSample)
    (h : latestPrice rows = some latest) :
    ∀ r ∈ rows, r.date.key ≤ latest.date.key := by
  intro r hr
  unfold latestPrice at h
  rcases hs : List.insertionSort sampleGe rows with _ | ⟨a, t⟩
  · rw [hs] at h; cases h
  · rw [hs] at h
    have ha : a = latest := by cases h; rfl
    subst ha
    have hmem : r ∈ List.insertionSort sampleGe rows :=
      (List.mem_insertionSort sampleGe).mpr hr
    rw [hs] at hmem
    rcases List.mem_cons.mp hmem with h1 | h1
    · subst h1; exact le_refl _
    · have hsorted := List.sorted_insertionSort sampleGe rows
      rw [hs] at hsorted
      exact List.rel_of_sorted_cons hsorted r h1

/-- The latest-sample query returns nothing exactly on the empty table. -/
theorem latestPrice_eq_none_iff (rows : List PriceSample) :
    latestPrice rows = none ↔ rows = [] := by
  unfold latestPrice
  rw [List.head?_eq_none_iff]
  constructor
  · intro h
    have := (List.perm_insertionSort sampleGe rows).length_eq
    rw [h] at this
    exact List.length_eq_zero.mp this.symm
  · intro h; rw [h]; rfl

/-- C3: with the uplift flag set and a nonempty resolved basket, the Cost
Estimator fails with NoPriceData exactly on an empty price table, and
otherwise applies the uplift of the most-recent sample exactly once (a
missing yoy value read as 0): monthly = round(base(1 + yoy/100), 2) and
annual = round(base(1 + yoy/100)12, 2). -/
theorem cost_estimate_uplift (snap : Snapshot) (payload : CostEstimateRequest)
    (hflag : payload.apply_yoy_cpi = true)
    (hne : resolve_lines snap payload ≠ []) :
    (snap.priceIndex = [] → cost_estimate snap payload = Except.error ApiError.NoPriceData) ∧
    (∀ latest, latestPrice snap.priceIndex = some latest →
      (∀ r ∈ snap.priceIndex, r.date.key ≤ latest.date.key) ∧
      cost_estimate snap payload =
        Except.ok ⟨roundTo 2 (sum_basket_lines (resolve_lines snap payload) *
            (1 + latest.pct_change_yoy.getD 0 / 100)),
          roundTo 2 (sum_basket_lines (resolve_lines snap payload) *
            (1 + latest.pct_change_yoy.getD 0 / 100) * 12),
          resolve_lines snap payload⟩) := by
  constructor
  · intro hpe
    have hlp : latestPrice snap.priceIndex = none :=
      (latestPrice_eq_none_iff snap.priceIndex).mpr hpe
    simp only [cost_estimate, if_neg hne, if_pos hflag, hlp]
  · intro latest hlp
    refine ⟨latestPrice_max snap.priceIndex latest hlp, ?_⟩
    simp only [cost_estimate, if_neg hne, if_pos hflag, hlp]

/-- Witness for C3 at the standard snapshot: latest sample dated
2025-01-01 with yoy 10, caller line 5/2 twice a month. -/
theorem cost_estimate_uplift_witness :
    (∀ r ∈ snapStd.priceIndex,
      r.date.key ≤ (⟨⟨2025, 1, 1⟩, 110, some 1, some 10⟩ : PriceSample).date.key) ∧
    cost_estimate snapStd ⟨some [⟨"pads pack", 5 / 2, 2, "GBP", none⟩], true⟩ =
      Except.ok ⟨roundTo 2 (sum_basket_lines (resolve_lines snapStd
          ⟨some [⟨"pads pack", 5 / 2, 2, "GBP", none⟩], true⟩) *
          (1 + (some (10 : ℚ)).getD 0 / 100)),
        roundTo 2 (sum_basket_lines (resolve_lines snapStd
          ⟨some [⟨"pads pack", 5 / 2, 2, "GBP", none⟩], true⟩) *
          (1 + (some (10 : ℚ)).getD 0 / 100) * 12),
        resolve_lines snapStd ⟨some [⟨"pads pack", 5 / 2, 2, "GBP", none⟩], true⟩⟩ :=
  (cost_estimate_uplift snapStd ⟨some [⟨"pads pack", 5 / 2, 2, "GBP", none⟩], true⟩
    rfl (by decide)).2 ⟨⟨2025, 1, 1⟩, 110, some 1, some 10⟩ (by decide)

/-- The max-year query returns nothing exactly on the empty table. -/
theorem maxHygieneYear_eq_none_iff (l : List HygieneRow) :
    maxHygieneYear l = none ↔ l = [] := by
  cases l with
  | nil => simp [maxHygieneYear]
  | cons hd t =>
    simp only [maxHygieneYear]
    rcases maxHygieneYear t with _ | m <;> simp

/-- The max-year query dominates every stored year. -/
theorem maxHygieneYear_le (l : List HygieneRow) (y : Int)
    (h : maxHygieneYear l = some y) : ∀ r ∈ l, r.year ≤ y := by
  induction l generalizing y with
  | nil => intro r hr; cases hr
  | cons hd t ih =>
    intro r hr
    simp only [maxHygieneYear] at h
    rcases ht : maxHygieneYear t with _ | m <;> rw [ht] at h
    · cases h
      rcases List.mem_cons.mp hr with h1 | h1
      · subst h1; exact le_refl _
      · rw [(maxHygieneYear_eq_none_iff t).mp ht] at h1; cases h1
    · cases h
      rcases List.mem_cons.mp hr with h1 | h1
      · subst h1; exact le_max_left _ _
      · exact le_trans (ih m ht r h1) (le_max_right _ _)

/-- The max-year query value is attained by some stored row. -/
theorem maxHygieneYear_mem (l : List HygieneRow) (y : Int)
    (h : maxHygieneYear l = some y) : ∃ r ∈ l, r.year = y := by
  induction l generalizing y with
  | nil => cases h
  | cons hd t ih =>
    simp only [maxHygieneYear] at h
    rcases ht : maxHygieneYear t with _ | m <;> rw [ht] at h
    · cases h
      exact ⟨hd, List.mem_cons_self hd t, rfl⟩
    · cases h
      rcases max_choice hd.year m with hm | hm <;> rw [hm]
      · exact ⟨hd, List.mem_cons_self hd t, rfl⟩
      · obtain ⟨r, hr, hry⟩ := ih m ht
        exact ⟨r, List.mem_cons_of_mem hd hr, hry⟩

/-- C6 (amended): the reference year is the maximum stored year whenever
that maximum is nonzero (the requested year on an empty table), and the
row read is the first in storage order with that year; two snapshots
agreeing on basket, welfare and on that selected row produce the same
result, but storage order of the hygiene rows does matter when several
share the reference year (see the counterexample). -/
theorem severity_hygiene_selection (sA sB : Snapshot) (year percentile : Int) :
    (sA.hygiene = [] → hygieneRefYear sA year = year) ∧
    (∀ y, maxHygieneYear sA.hygiene = some y → y ≠ 0 →
      hygieneRefYear sA year = y ∧ (∀ h ∈ sA.hygiene, h.year ≤ y) ∧
      ∃ h ∈ sA.hygiene, h.year = y) ∧
    (∀ hrow, findHygiene sA year = some hrow →
      ∃ l1 l2, sA.hygiene = l1 ++ hrow :: l2 ∧
        hrow.year = hygieneRefYear sA year ∧
        ∀ h ∈ l1, h.year ≠ hygieneRefYear sA year) ∧
    (sA.basket = sB.basket → sA.incomePoverty = sB.incomePoverty →
      findHygiene sA year = findHygiene sB year →
      severity_score sA year percentile = severity_score sB year percentile) := by
  refine ⟨?_, ?_, ?_, ?_⟩
  · intro h
    unfold hygieneRefYear
    rw [h]
    rfl
  · intro y hy hy0
    refine ⟨?_, maxHygieneYear_le sA.hygiene y hy, maxHygieneYear_mem sA.hygiene y hy⟩
    simp only [hygieneRefYear, hy]
    rw [if_neg hy0]
  · intro hrow hfh
    unfold findHygiene at hfh
    obtain ⟨hp, l1, l2, hsplit, hall⟩ := List.find?_eq_some.mp hfh
    refine ⟨l1, l2, hsplit, of_decide_eq_true hp, ?_⟩
    intro h hmem
    have := hall h hmem
    simpa using this
  · intro h1 h2 h3
    simp only [severity_score, findWelfare, h1, h2, h3]

/-- Witness for C6 at the year-zero-free snapshot snapOrdA. -/
theorem severity_hygiene_selection_witness :
    hygieneRefYear snapOrdA 2018 = 2018 ∧
    (∃ h ∈ snapOrdA.hygiene, h.year = 2018) ∧
    severity_score snapOrdA 2018 20 = severity_score snapOrdA 2018 20 :=
  ⟨((severity_hygiene_selection snapOrdA snapOrdA 2018 20).2.1 2018
      (by decide) (by decide)).1,
   ((severity_hygiene_selection snapOrdA snapOrdA 2018 20).2.1 2018
      (by decide) (by decide)).2.2,
   (severity_hygiene_selection snapOrdA snapOrdA 2018 20).2.2.2 rfl rfl rfl⟩

/-- Counterexample to C6 as stated: two snapshots that differ only in the
storage order of the hygiene rows make severity-score read different
rows and return different results. -/
theorem severity_order_dependence_cex :
    snapOrdA.priceIndex = snapOrdB.priceIndex ∧
    snapOrdA.incomePoverty = snapOrdB.incomePoverty ∧
    snapOrdA.basket = snapOrdB.basket ∧
    snapOrdA.hygiene.Perm snapOrdB.hygiene ∧
    severity_score snapOrdA 2018 20 ≠ severity_score snapOrdB 2018 20 := by
  refine ⟨rfl, rfl, rfl, List.Perm.swap _ _ _, ?_⟩
  rw [severity_score_eq snapOrdA 2018 20 ⟨2018, 20, 10, none⟩ ⟨"UK", 2018, "a", 50⟩
      (by decide) (by decide) (by decide),
    severity_score_eq snapOrdB 2018 20 ⟨2018, 20, 10, none⟩ ⟨"UK", 2018, "b", 80⟩
      (by decide) (by decide) (by decide)]
  intro heq
  have hv : roundTo 1 ((50 : ℚ)) = roundTo 1 ((80 : ℚ)) :=
    congrArg SeverityScoreResponse.hygiene_value_pct (Except.ok.inj heq)
  norm_num [roundTo, round_eq] at hv

/-- C10 (amended): severity-score fails with NoHygieneData exactly when
no stored row carries the resolved reference year; an empty table always
fails, and a nonempty table with nonzero maximum year always succeeds,
but a nonempty table whose maximum year is 0 falls back to the requested
year by Python or-falsiness and can fail (see the counterexample). -/
theorem hygiene_missing_iff (snap : Snapshot) (year percentile : Int) (w : WelfareRec)
    (hb : snap.basket ≠ [])
    (hw : findWelfare snap year percentile = some w) :
    (severity_score snap year percentile = Except.error ApiError.NoHygieneData ↔
      findHygiene snap year = none) ∧
    (snap.hygiene = [] → findHygiene snap year = none) ∧
    (∀ y, maxHygieneYear snap.hygiene = some y → y ≠ 0 →
      findHygiene snap year ≠ none) := by
  refine ⟨⟨?_, ?_⟩, ?_, ?_⟩
  · intro h
    rcases hfh : findHygiene snap year with _ | hrow
    · rfl
    · rw [severity_score_eq snap year percentile w hrow hb hw hfh] at h; cases h
  · intro hfh
    simp only [severity_score, if_neg hb, hw, burdenRatioChecked_eq, hfh]
  · intro h
    unfold findHygiene
    rw [h]
    rfl
  · intro y hy hy0 hn
    unfold findHygiene at hn
    rw [List.find?_eq_none] at hn
    obtain ⟨r, hr, hry⟩ := maxHygieneYear_mem snap.hygiene y hy
    refine hn r hr ?_
    have href : hygieneRefYear snap year = y := by
      simp only [hygieneRefYear, hy]
      rw [if_neg hy0]
    rw [href, hry]
    exact decide_eq_true rfl

/-- Witness for C10: on the standard snapshot the lookup cannot fail. -/
theorem hygiene_missing_iff_witness :
    (severity_score snapStd 2018 20 = Except.error ApiError.NoHygieneData ↔
      findHygiene snapStd 2018 = none) ∧
    findHygiene snapStd 2018 ≠ none :=
  ⟨(hygiene_missing_iff snapStd 2018 20 ⟨2018, 20, 10, none⟩ (by decide) (by decide)).1,
   (hygiene_missing_iff snapStd 2018 20 ⟨2018, 20, 10, none⟩ (by decide) (by decide)).2.2
     2018 (by decide) (by decide)⟩

/-- Counterexample to C10 as stated: a nonempty hygiene table whose only
row has year 0 makes the Python or-expression fall back to the requested
year, and the lookup fails with NoHygieneData although the table is not
empty. -/
theorem hygiene_zero_year_cex :
    snapYearZero.hygiene ≠ [] ∧
    severity_score snapYearZero 2018 20 = Except.error ApiError.NoHygieneData := by
  constructor
  · decide
  · have h1 : ¬ snapYearZero.basket = [] := by decide
    have h2 : findWelfare snapYearZero 2018 20 = some ⟨2018, 20, 10, none⟩ := by decide
    have h3 : findHygiene snapYearZero 2018 = none := by decide
    simp only [severity_score, if_neg h1, h2, burdenRatioChecked_eq, h3]

/-- The lower-bound filter keeps exactly the rows dated on or after the
normalized bound. -/
theorem filterFrom_eq (fromP : Option String) (lo : Option Date)
    (hlo : boundOk fromP lo) (rows : List PriceSample) :
    filterFrom fromP rows = Except.ok (rows.filter (inRangeB lo none)) := by
  rcases fromP with _ | s
  · rcases lo with _ | dlo
    · simp only [filterFrom]
      exact congrArg Except.ok
        (List.filter_eq_self.mpr fun a _ => by simp [inRangeB]).symm
    · exact hlo.elim
  · rcases lo with _ | dlo
    · exact hlo.elim
    · have hpar : parse_month_or_date s = Except.ok dlo := hlo
      have hs : ¬ s = "" := by
        intro h
        subst h
        rw [show parse_month_or_date ("") = Except.error ApiError.InvalidDateFormat from rfl]
          at hpar
        cases hpar
      simp only [filterFrom, if_neg hs, hpar]
      exact congrArg Except.ok (List.filter_congr fun a _ => by simp [inRangeB])

/-- The upper-bound filter keeps exactly the rows dated on or before the
normalized bound. -/
theorem filterTo_eq (toP : Option String) (hi : Option Date)
    (hhi : boundOk toP hi) (rows : List PriceSample) :
    filterTo toP rows = Except.ok (rows.filter (inRangeB none hi)) := by
  rcases toP with _ | s
  · rcases hi with _ | dhi
    · simp only [filterTo]
      exact congrArg Except.ok
        (List.filter_eq_self.mpr fun a _ => by simp [inRangeB]).symm
    · exact hhi.elim
  · rcases hi with _ | dhi
    · exact hhi.elim
    · have hpar : parse_month_or_date s = Except.ok dhi := hhi
      have hs : ¬ s = "" := by
        intro h
        subst h
        rw [show parse_month_or_date ("") = Except.error ApiError.InvalidDateFormat from rfl]
          at hpar
        cases hpar
      simp only [filterTo, if_neg hs, hpar]
      exact congrArg Except.ok (List.filter_congr fun a _ => by simp [inRangeB])

/-- Splitting the inclusive range test into its two one-sided halves. -/
theorem inRangeB_split (lo hi : Option Date) (rows : List PriceSample) :
    (rows.filter (inRangeB lo none)).filter (inRangeB none hi) =
      rows.filter (inRangeB lo hi) := by
  rw [List.filter_filter]
  apply List.filter_congr
  intro a _
  unfold inRangeB
  rcases lo with _ | dlo <;> rcases hi with _ | dhi <;>
    simp [Bool.and_comm]

/-- C8: when each given bound normalizes, the Trend Extractor returns,
without error, exactly the samples inside the inclusive range (an omitted
bound restricting nothing), sorted ascending by date and projected to
(date, index value, yoy change). -/
theorem inflation_trend_range (snap : Snapshot) (fromP toP : Option String)
    (lo hi : Option Date)
    (hlo : boundOk fromP lo) (hhi : boundOk toP hi) :
    ∃ pts, inflation_trend snap fromP toP = Except.ok pts ∧
      pts.Perm ((snap.priceIndex.filter (inRangeB lo hi)).map
        fun r => ⟨r.date, r.cpi_index, r.pct_change_yoy⟩) ∧
      List.Sorted trendLe pts := by
  simp only [inflation_trend, filterFrom_eq fromP lo hlo snap.priceIndex,
    filterTo_eq toP hi hhi, inRangeB_split]
  refine ⟨_, rfl, ?_, ?_⟩
  · exact (List.perm_insertionSort sampleLe _).map _
  · exact (List.sorted_insertionSort sampleLe _).map _ (fun a b h => h)

/-- Witness for C8: bounds 2024-01-01 and 2025-01-01 on the three-sample
snapshot; the sample one day before the lower bound drops out while the
two samples dated exactly on the bounds stay, in ascending order. -/
theorem inflation_trend_range_witness :
    ∃ pts, inflation_trend snapTrend (some "2024-01-01") (some "2025-01-01") =
        Except.ok pts ∧
      pts.Perm ((snapTrend.priceIndex.filter
          (inRangeB (some ⟨2024, 1, 1⟩) (some ⟨2025, 1, 1⟩))).map
        fun r => ⟨r.date, r.cpi_index, r.pct_change_yoy⟩) ∧
      List.Sorted trendLe pts :=
  inflation_trend_range snapTrend (some "2024-01-01") (some "2025-01-01")
    (some ⟨2024, 1, 1⟩) (some ⟨2025, 1, 1⟩) rfl rfl

/-!
Token-level lemmas for the Date Normalizer: each strptime directive parses
exactly the digit strings its regex alternatives describe.
-/

theorem isDig_bounds {c : Char} (h : isDig c = true) :
    48 ≤ c.toNat ∧ c.toNat ≤ 57 :=
  of_decide_eq_true h

theorem isDig_of_bounds {c : Char} (h1 : 48 ≤ c.toNat) (h2 : c.toNat ≤ 57) :
    isDig c = true :=
  decide_eq_true ⟨h1, h2⟩

theorem digitVal_def (c : Char) : digitVal c = c.toNat - 48 := rfl

theorem natOfDigits_one (a : Char) : natOfDigits [a] = digitVal a := by
  simp [natOfDigits]

theorem natOfDigits_two (a b : Char) :
    natOfDigits [a, b] = digitVal a * 10 + digitVal b := by
  simp [natOfDigits]

theorem natOfDigits_four (a b c d : Char) :
    natOfDigits [a, b, c, d] =
      ((digitVal a * 10 + digitVal b) * 10 + digitVal c) * 10 + digitVal d := by
  simp [natOfDigits]

theorem isDigits_cons {c : Char} {l : List Char} :
    isDigits (c :: l) ↔ isDig c = true ∧ isDigits l := by
  unfold isDigits
  simp

theorem isDigits_nil : isDigits [] := by
  intro c hc
  cases hc

/-- Four digit characters make a value of at most 9999. -/
theorem natOfDigits_four_le {a b c d : Char} (h : isDigits [a, b, c, d]) :
    natOfDigits [a, b, c, d] ≤ 9999 := by
  rw [isDigits_cons, isDigits_cons, isDigits_cons, isDigits_cons] at h
  obtain ⟨ha, hb, hc, hd, -⟩ := h
  have h1 := isDig_bounds ha
  have h2 := isDig_bounds hb
  have h3 := isDig_bounds hc
  have h4 := isDig_bounds hd
  rw [natOfDigits_four]
  simp only [digitVal_def]
  omega

theorem expectDash_eq_some {l r : List Char} :
    expectDash l = some r ↔ l = '-' :: r := by
  cases l with
  | nil => simp [expectDash]
  | cons c t =>
    by_cases hc : c = '-'
    · subst hc
      simp [expectDash]
    · simp [expectDash, hc]

theorem parseY_sound {l : List Char} {y : Nat} {r : List Char}
    (h : parseY l = some (y, r)) :
    ∃ ys, l = ys ++ r ∧ isDigits ys ∧ ys.length = 4 ∧ natOfDigits ys = y := by
  match l, h with
  | a :: b :: c :: d :: rest, h =>
    rw [parseY] at h
    split_ifs at h with h1
    · obtain ⟨ha, hb, hc, hd⟩ := h1
      cases h
      refine ⟨[a, b, c, d], rfl, ?_, rfl, ?_⟩
      · rw [isDigits_cons, isDigits_cons, isDigits_cons, isDigits_cons]
        exact ⟨ha, hb, hc, hd, isDigits_nil⟩
      · rw [natOfDigits_four]

theorem parseY_complete (ys : List Char) (r : List Char)
    (hd : isDigits ys) (hlen : ys.length = 4) :
    parseY (ys ++ r) = some (natOfDigits ys, r) := by
  match ys, hlen with
  | [a, b, c, d], _ =>
    rw [isDigits_cons, isDigits_cons, isDigits_cons, isDigits_cons] at hd
    obtain ⟨ha, hb, hc, hd', -⟩ := hd
    show parseY (a :: b :: c :: d :: r) = _
    rw [parseY, if_pos ⟨ha, hb, hc, hd'⟩, natOfDigits_four]

theorem parseM_sound {l : List Char} {m : Nat} {r : List Char}
    (h : parseM l = some (m, r)) :
    ∃ ms, l = ms ++ r ∧ isDigits ms ∧ (ms.length = 1 ∨ ms.length = 2) ∧
      natOfDigits ms = m ∧ 1 ≤ m ∧ m ≤ 12 := by
  match l, h with
  | [a], h =>
    rw [parseM] at h
    split_ifs at h with h1
    · cases h
      refine ⟨[a], rfl, ?_, Or.inl rfl, natOfDigits_one a, ?_, ?_⟩
      · rw [isDigits_cons]
        exact ⟨isDig_of_bounds (by omega) (by omega), isDigits_nil⟩
      · simp only [digitVal_def]; omega
      · simp only [digitVal_def]; omega
  | a :: b :: rest, h =>
    rw [parseM] at h
    split_ifs at h with h1 h2 h3
    · cases h
      refine ⟨[a, b], rfl, ?_, Or.inr rfl, ?_, by omega, ?_⟩
      · rw [isDigits_cons, isDigits_cons]
        exact ⟨isDig_of_bounds (by omega) (by omega),
          isDig_of_bounds (by omega) (by omega), isDigits_nil⟩
      · rw [natOfDigits_two]; simp only [digitVal_def]; omega
      · simp only [digitVal_def]; omega
    · cases h
      refine ⟨[a, b], rfl, ?_, Or.inr rfl, ?_, ?_, ?_⟩
      · rw [isDigits_cons, isDigits_cons]
        exact ⟨isDig_of_bounds (by omega) (by omega),
          isDig_of_bounds (by omega) (by omega), isDigits_nil⟩
      · rw [natOfDigits_two]; simp only [digitVal_def]; omega
      · simp only [digitVal_def]; omega
      · simp only [digitVal_def]; omega
    · cases h
      refine ⟨[a], rfl, ?_, Or.inl rfl, natOfDigits_one a, ?_, ?_⟩
      · rw [isDigits_cons]
        exact ⟨isDig_of_bounds (by omega) (by omega), isDigits_nil⟩
      · simp only [digitVal_def]; omega
      · simp only [digitVal_def]; omega

theorem parseM_end (ms : List Char) (hd : isDigits ms)
    (hlen : ms.length = 1 ∨ ms.length = 2)
    (h1 : 1 ≤ natOfDigits ms) (h12 : natOfDigits ms ≤ 12) :
    parseM ms = some (natOfDigits ms, []) := by
  rcases hlen with hlen | hlen
  · match ms, hlen with
    | [a], _ =>
      rw [isDigits_cons] at hd
      have ha := isDig_bounds hd.1
      rw [natOfDigits_one, digitVal_def] at h1 h12 ⊢
      rw [parseM, if_pos (by omega)]
      rfl
  · match ms, hlen with
    | [a, b], _ =>
      rw [isDigits_cons, isDigits_cons] at hd
      obtain ⟨ha1, hb1, -⟩ := hd
      have ha := isDig_bounds ha1
      have hb := isDig_bounds hb1
      rw [natOfDigits_two, digitVal_def, digitVal_def] at h1 h12 ⊢
      rw [parseM]
      split_ifs with hc1 hc2 hc3
      · simp only [digitVal_def, Option.some.injEq, Prod.mk.injEq]
        exact ⟨by omega, by trivial⟩
      · simp only [digitVal_def, Option.some.injEq, Prod.mk.injEq]
        exact ⟨by omega, by trivial⟩
      · exfalso; omega
      · exfalso; omega

theorem parseM_dash (ms : List Char) (t : List Char) (hd : isDigits ms)
    (hlen : ms.length = 1 ∨ ms.length = 2)
    (h1 : 1 ≤ natOfDigits ms) (h12 : natOfDigits ms ≤ 12) :
    parseM (ms ++ '-' :: t) = some (natOfDigits ms, '-' :: t) := by
  have hdash : ('-').toNat = 45 := rfl
  rcases hlen with hlen | hlen
  · match ms, hlen with
    | [a], _ =>
      rw [isDigits_cons] at hd
      have ha := isDig_bounds hd.1
      rw [natOfDigits_one, digitVal_def] at h1 h12 ⊢
      show parseM (a :: '-' :: t) = _
      rw [parseM]
      split_ifs with hc1 hc2 hc3
      · exfalso; omega
      · exfalso; omega
      · rfl
      · exfalso; omega
  · match ms, hlen with
    | [a, b], _ =>
      rw [isDigits_cons, isDigits_cons] at hd
      obtain ⟨ha1, hb1, -⟩ := hd
      have ha := isDig_bounds ha1
      have hb := isDig_bounds hb1
      rw [natOfDigits_two, digitVal_def, digitVal_def] at h1 h12 ⊢
      show parseM (a :: b :: '-' :: t) = _
      rw [parseM]
      split_ifs with hc1 hc2 hc3
      · simp only [digitVal_def, Option.some.injEq, Prod.mk.injEq]
        exact ⟨by omega, by trivial⟩
      · simp only [digitVal_def, Option.some.injEq, Prod.mk.injEq]
        exact ⟨by omega, by trivial⟩
      · exfalso; omega
      · exfalso; omega

theorem parseD_sound {l : List Char} {d : Nat} {r : List Char}
    (h : parseD l = some (d, r)) :
    ∃ ds, l = ds ++ r ∧ dayToken ds d := by
  match l, h with
  | [a], h =>
    rw [parseD] at h
    split_ifs at h with h1
    · cases h
      refine ⟨[a], rfl, Or.inl ⟨?_, Or.inl rfl, natOfDigits_one a, ?_, ?_⟩⟩
      · rw [isDigits_cons]
        exact ⟨isDig_of_bounds (by omega) (by omega), isDigits_nil⟩
      · simp only [digitVal_def]; omega
      · simp only [digitVal_def]; omega
  | a :: b :: rest, h =>
    rw [parseD] at h
    split_ifs at h with h1 h2 h3 h4 h5
    · cases h
      refine ⟨[a, b], rfl, Or.inl ⟨?_, Or.inr rfl, ?_, by omega, ?_⟩⟩
      · rw [isDigits_cons, isDigits_cons]
        exact ⟨isDig_of_bounds (by omega) (by omega),
          isDig_of_bounds (by omega) (by omega), isDigits_nil⟩
      · rw [natOfDigits_two]; simp only [digitVal_def]; omega
      · simp only [digitVal_def]; omega
    · cases h
      refine ⟨[a, b], rfl, Or.inl ⟨?_, Or.inr rfl, natOfDigits_two a b, ?_, ?_⟩⟩
      · rw [isDigits_cons, isDigits_cons]
        exact ⟨isDig_of_bounds (by omega) (by omega),
          isDig_of_bounds (by omega) (by omega), isDigits_nil⟩
      · simp only [digitVal_def]; omega
      · simp only [digitVal_def]; omega
    · cases h
      refine ⟨[a, b], rfl, Or.inl ⟨?_, Or.inr rfl, ?_, ?_, ?_⟩⟩
      · rw [isDigits_cons, isDigits_cons]
        exact ⟨isDig_of_bounds (by omega) (by omega),
          isDig_of_bounds (by omega) (by omega), isDigits_nil⟩
      · rw [natOfDigits_two]; simp only [digitVal_def]; omega
      · simp only [digitVal_def]; omega
      · simp only [digitVal_def]; omega
    · cases h
      refine ⟨[a], rfl, Or.inl ⟨?_, Or.inl rfl, natOfDigits_one a, ?_, ?_⟩⟩
      · rw [isDigits_cons]
        exact ⟨isDig_of_bounds (by omega) (by omega), isDigits_nil⟩
      · simp only [digitVal_def]; omega
      · simp only [digitVal_def]; omega
    · cases h
      exact ⟨[a, b], rfl, Or.inr ⟨a, b, rfl, h5.1, h5.2.1, h5.2.2, rfl⟩⟩

/-- Day-token strings longer than the digits they carry do not exist:
every accepted day part has one or two characters. -/
theorem dayToken_length {ds : List Char} {d : Nat} (h : dayToken ds d) :
    ds.length = 1 ∨ ds.length = 2 := by
  rcases h with ⟨-, hlen, -⟩ | ⟨c0, c, hds, -⟩
  · exact hlen
  · rw [hds]
    exact Or.inr rfl

theorem parseD_token_end (ds : List Char) (d : Nat) (h : dayToken ds d) :
    parseD ds = some (d, []) := by
  rcases h with ⟨hd, hlen, hv, h1, h31⟩ | ⟨c0, c, hds, hc0, hc1, hc2, hcv⟩
  · subst hv
    rcases hlen with hlen | hlen
    · match ds, hlen with
      | [a], _ =>
        rw [isDigits_cons] at hd
        have ha := isDig_bounds hd.1
        rw [natOfDigits_one, digitVal_def] at h1 h31 ⊢
        rw [parseD, if_pos (by omega)]
        rfl
    · match ds, hlen with
      | [a, b], _ =>
        rw [isDigits_cons, isDigits_cons] at hd
        obtain ⟨ha1, hb1, -⟩ := hd
        have ha := isDig_bounds ha1
        have hb := isDig_bounds hb1
        rw [natOfDigits_two, digitVal_def, digitVal_def] at h1 h31 ⊢
        rw [parseD]
        split_ifs with hc1 hc2 hc3 hc4 hc5
        · simp only [digitVal_def, Option.some.injEq, Prod.mk.injEq]
          exact ⟨by omega, by trivial⟩
        · simp only [digitVal_def, Option.some.injEq, Prod.mk.injEq]
        · simp only [digitVal_def, Option.some.injEq, Prod.mk.injEq]
          exact ⟨by omega, by trivial⟩
        · exfalso; omega
        · exfalso; omega
        · exfalso; omega
  · subst hcv
    subst hds
    rw [parseD]
    split_ifs with hd1 hd2 hd3 hd4 hd5
    · exfalso; omega
    · exfalso; omega
    · exfalso; omega
    · exfalso; omega
    · rfl
    · exfalso; omega

theorem natOfDigits_len4_le {ys : List Char} (hd : isDigits ys)
    (hl : ys.length = 4) : natOfDigits ys ≤ 9999 := by
  match ys, hl with
  | [a, b, c, d], _ => exact natOfDigits_four_le hd

theorem daysInMonth_pos (y m : Nat) : 1 ≤ daysInMonth y m := by
  unfold daysInMonth
  split_ifs <;> omega

theorem daysInMonth_le31 (y m : Nat) : daysInMonth y m ≤ 31 := by
  unfold daysInMonth
  split_ifs <;> omega

theorem tryYMD_sound {s : String} {y m d : Nat}
    (h : tryYMD s.data = some (y, m, d)) : relaxedYMD s y m d := by
  unfold tryYMD at h
  rcases hy : parseY s.data with _ | ⟨y1, r1⟩ <;> simp only [hy] at h
  · cases h
  · rcases hd1 : expectDash r1 with _ | r2 <;> simp only [hd1] at h
    · cases h
    · rcases hm : parseM r2 with _ | ⟨m1, r3⟩ <;> simp only [hm] at h
      · cases h
      · rcases hd2 : expectDash r3 with _ | r4 <;> simp only [hd2] at h
        · cases h
        · rcases hdp : parseD r4 with _ | ⟨d1, r5⟩ <;> simp only [hdp] at h
          · cases h
          · split_ifs at h with h5
            · cases h
              subst h5
              obtain ⟨ys, hys, hysd, hyslen, hysv⟩ := parseY_sound hy
              obtain ⟨ms, hms, hmsd, hmslen, hmsv, hm1, hm12⟩ := parseM_sound hm
              obtain ⟨ds, hds, htok⟩ := parseD_sound hdp
              rw [expectDash_eq_some] at hd1 hd2
              rw [List.append_nil] at hds
              refine ⟨ys, ms, ds, ?_, hysd, hmsd, hyslen, hmslen,
                hysv, hmsv, hm1, hm12, htok⟩
              rw [hys, hd1, hms, hd2, hds]

theorem tryYM_sound {s : String} {y m : Nat}
    (h : tryYM s.data = some (y, m)) : relaxedYM s y m := by
  unfold tryYM at h
  rcases hy : parseY s.data with _ | ⟨y1, r1⟩ <;> simp only [hy] at h
  · cases h
  · rcases hd1 : expectDash r1 with _ | r2 <;> simp only [hd1] at h
    · cases h
    · rcases hm : parseM r2 with _ | ⟨m1, r3⟩ <;> simp only [hm] at h
      · cases h
      · split_ifs at h with h3
        · cases h
          subst h3
          obtain ⟨ys, hys, hysd, hyslen, hysv⟩ := parseY_sound hy
          obtain ⟨ms, hms, hmsd, hmslen, hmsv, hm1, hm12⟩ := parseM_sound hm
          rw [expectDash_eq_some] at hd1
          rw [List.append_nil] at hms
          refine ⟨ys, ms, ?_, hysd, hmsd, hyslen, hmslen, hysv, hmsv, hm1, hm12⟩
          rw [hys, hd1, hms]

theorem tryYMD_complete {s : String} {y m d : Nat} (h : relaxedYMD s y m d) :
    tryYMD s.data = some (y, m, d) := by
  obtain ⟨ys, ms, ds, hsplit, hysd, hmsd, hyslen, hmslen,
    hysv, hmsv, hm1, hm12, htok⟩ := h
  rw [hsplit]
  simp [tryYMD, parseY_complete ys ('-' :: (ms ++ '-' :: ds)) hysd hyslen,
    expectDash, parseM_dash ms ds hmsd hmslen (hmsv ▸ hm1) (hmsv ▸ hm12),
    parseD_token_end ds d htok, hysv, hmsv]

theorem tryYM_complete {s : String} {y m : Nat} (h : relaxedYM s y m) :
    tryYM s.data = some (y, m) := by
  obtain ⟨ys, ms, hsplit, hysd, hmsd, hyslen, hmslen, hysv, hmsv, hm1, hm12⟩ := h
  rw [hsplit]
  simp [tryYM, parseY_complete ys ('-' :: ms) hysd hyslen, expectDash,
    parseM_end ms hmsd hmslen (hmsv ▸ hm1) (hmsv ▸ hm12), hysv, hmsv]

theorem relaxedYMD_length {s : String} {y m d : Nat} (h : relaxedYMD s y m d) :
    8 ≤ s.data.length := by
  obtain ⟨ys, ms, ds, hsplit, -, -, hyl, hml, -, -, -, -, htok⟩ := h
  have hdl := dayToken_length htok
  rw [hsplit]
  simp only [List.length_append, List.length_cons]
  omega

theorem relaxedYM_length {s : String} {y m : Nat} (h : relaxedYM s y m) :
    s.data.length ≤ 7 := by
  obtain ⟨ys, ms, hsplit, -, -, hyl, hml, -⟩ := h
  rw [hsplit]
  simp only [List.length_append, List.length_cons]
  omega

theorem parse_of_relaxedYMD {s : String} {y m d : Nat}
    (h : relaxedYMD s y m d) (hv : validDateB y m d = true) :
    parse_month_or_date s = Except.ok ⟨y, m, d⟩ := by
  have ht := tryYMD_complete h
  unfold parse_month_or_date
  rw [ht]
  show (if validDateB y m d = true then Except.ok (⟨y, m, d⟩ : Date)
    else fallbackYM s) = _
  rw [if_pos hv]

theorem parse_of_relaxedYM {s : String} {y m : Nat}
    (h : relaxedYM s y m) (hy : 1 ≤ y) :
    parse_month_or_date s = Except.ok ⟨y, m, 1⟩ := by
  have hym := tryYM_complete h
  have hy9999 : y ≤ 9999 := by
    obtain ⟨ys, ms, hsplit, hysd, -, hyl, -, hysv, -⟩ := h
    rw [← hysv]
    exact natOfDigits_len4_le hysd hyl
  have hm1 : 1 ≤ m := by
    obtain ⟨-, -, -, -, -, -, -, -, -, hm1, -⟩ := h
    exact hm1
  have hm12 : m ≤ 12 := by
    obtain ⟨-, -, -, -, -, -, -, -, -, -, hm12⟩ := h
    exact hm12
  have hnone : tryYMD s.data = none := by
    rcases htr : tryYMD s.data with _ | ⟨y2, m2, d2⟩
    · rfl
    · exfalso
      have h8 := relaxedYMD_length (tryYMD_sound htr)
      have h7 := relaxedYM_length h
      omega
  unfold parse_month_or_date
  rw [hnone]
  show fallbackYM s = _
  unfold fallbackYM
  rw [hym]
  show (if validDateB y m 1 = true then Except.ok (⟨y, m, 1⟩ : Date)
    else Except.error ApiError.InvalidDateFormat) = _
  rw [if_pos ?hvb]
  case hvb =>
    unfold validDateB
    exact decide_eq_true ⟨hy, hy9999, hm1, hm12, le_refl 1, daysInMonth_pos y m⟩

theorem fallbackYM_ok_or_error (s : String) :
    (∃ dt, fallbackYM s = Except.ok dt) ∨
      fallbackYM s = Except.error ApiError.InvalidDateFormat := by
  unfold fallbackYM
  split
  · split_ifs
    · left; exact ⟨_, rfl⟩
    · right; rfl
  · right; rfl

theorem parse_month_or_date_ok_or_error (s : String) :
    (∃ dt, parse_month_or_date s = Except.ok dt) ∨
      parse_month_or_date s = Except.error ApiError.InvalidDateFormat := by
  unfold parse_month_or_date
  split
  · split_ifs
    · left; exact ⟨_, rfl⟩
    · exact fallbackYM_ok_or_error s
  · exact fallbackYM_ok_or_error s

theorem parse_ok_sound {s : String} {dt : Date}
    (h : parse_month_or_date s = Except.ok dt) :
    (∃ y m d, relaxedYMD s y m d ∧ validDateB y m d = true ∧ dt = ⟨y, m, d⟩) ∨
    (∃ y m, relaxedYM s y m ∧ 1 ≤ y ∧ dt = ⟨y, m, 1⟩) := by
  unfold parse_month_or_date at h
  rcases htr : tryYMD s.data with _ | ⟨y, m, d⟩ <;> simp only [htr] at h
  · unfold fallbackYM at h
    rcases htm : tryYM s.data with _ | ⟨y, m⟩ <;> simp only [htm] at h
    · cases h
    · split_ifs at h with hv
      · cases h
        right
        refine ⟨y, m, tryYM_sound htm, ?_, rfl⟩
        have hv' : (1 ≤ y ∧ y ≤ 9999 ∧ 1 ≤ m ∧ m ≤ 12 ∧ 1 ≤ 1 ∧
            1 ≤ daysInMonth y m) := by
          unfold validDateB at hv
          exact of_decide_eq_true hv
        exact hv'.1
  · split_ifs at h with hv
    · cases h
      left
      exact ⟨y, m, d, tryYMD_sound htr, hv, rfl⟩
    · exfalso
      unfold fallbackYM at h
      rcases htm : tryYM s.data with _ | ⟨y2, m2⟩ <;> simp only [htm] at h
      · cases h
      · have h8 := relaxedYMD_length (tryYMD_sound htr)
        have h7 := relaxedYM_length (tryYM_sound htm)
        omega

/-- A string matching the strict zero-padded date pattern with valid
calendar fields also matches the relaxed pattern strptime accepts. -/
theorem strictYMD_relaxed {s : String} {y m d : Nat}
    (h : strictYMD s = some (y, m, d)) (hv : validDateB y m d = true) :
    relaxedYMD s y m d := by
  have hv' := of_decide_eq_true (p := 1 ≤ y ∧ y ≤ 9999 ∧ 1 ≤ m ∧ m ≤ 12 ∧
    1 ≤ d ∧ d ≤ daysInMonth y m) hv
  unfold strictYMD at h
  split at h
  · rename_i a b c dc e f g hh heq
    split_ifs at h with hdig
    · cases h
      rw [isDigits_cons, isDigits_cons, isDigits_cons, isDigits_cons,
        isDigits_cons, isDigits_cons, isDigits_cons, isDigits_cons] at hdig
      obtain ⟨h1, h2, h3, h4, h5, h6, h7, h8, -⟩ := hdig
      refine ⟨[a, b, c, dc], [e, f], [g, hh], ?_, ?_, ?_, rfl, Or.inr rfl,
        rfl, rfl, hv'.2.2.1, hv'.2.2.2.1,
        Or.inl ⟨?_, Or.inr rfl, rfl, hv'.2.2.2.2.1,
          le_trans hv'.2.2.2.2.2 (daysInMonth_le31 _ _)⟩⟩
      · rw [heq]; rfl
      · rw [isDigits_cons, isDigits_cons, isDigits_cons, isDigits_cons]
        exact ⟨h1, h2, h3, h4, isDigits_nil⟩
      · rw [isDigits_cons, isDigits_cons]
        exact ⟨h5, h6, isDigits_nil⟩
      · rw [isDigits_cons, isDigits_cons]
        exact ⟨h7, h8, isDigits_nil⟩
  · cases h

/-- A string matching the strict zero-padded month pattern with a valid
month also matches the relaxed pattern strptime accepts. -/
theorem strictYM_relaxed {s : String} {y m : Nat}
    (h : strictYM s = some (y, m)) (hm1 : 1 ≤ m) (hm12 : m ≤ 12) :
    relaxedYM s y m := by
  unfold strictYM at h
  split at h
  · rename_i a b c dc e f heq
    split_ifs at h with hdig
    · cases h
      rw [isDigits_cons, isDigits_cons, isDigits_cons, isDigits_cons,
        isDigits_cons, isDigits_cons] at hdig
      obtain ⟨h1, h2, h3, h4, h5, h6, -⟩ := hdig
      refine ⟨[a, b, c, dc], [e, f], ?_, ?_, ?_, rfl, Or.inr rfl, rfl, rfl,
        hm1, hm12⟩
      · rw [heq]; rfl
      · rw [isDigits_cons, isDigits_cons, isDigits_cons, isDigits_cons]
        exact ⟨h1, h2, h3, h4, isDigits_nil⟩
      · rw [isDigits_cons, isDigits_cons]
        exact ⟨h5, h6, isDigits_nil⟩
  · cases h

/-- The parser errors exactly when the input matches neither relaxed
pattern with valid calendar fields. -/
theorem parse_error_iff (s : String) :
    parse_month_or_date s = Except.error ApiError.InvalidDateFormat ↔
      (¬ ∃ y m d, relaxedYMD s y m d ∧ validDateB y m d = true) ∧
      (¬ ∃ y m, relaxedYM s y m ∧ 1 ≤ y) := by
  constructor
  · intro h
    constructor
    · rintro ⟨y, m, d, hrel, hv⟩
      rw [parse_of_relaxedYMD hrel hv] at h
      cases h
    · rintro ⟨y, m, hrel, hy⟩
      rw [parse_of_relaxedYM hrel hy] at h
      cases h
  · rintro ⟨h1, h2⟩
    rcases parse_month_or_date_ok_or_error s with ⟨dt, hok⟩ | herr
    · exfalso
      rcases parse_ok_sound hok with ⟨y, m, d, hrel, hv, -⟩ | ⟨y, m, hrel, hy, -⟩
      · exact h1 ⟨y, m, d, hrel, hv⟩
      · exact h2 ⟨y, m, hrel, hy⟩
    · exact herr

/-- C7 (amended): the Date Normalizer returns the exact calendar date for
a string matching the date pattern with valid fields and the first of the
month for one matching the month pattern with a valid month, where the
patterns are those of strptime: the month part may carry one or two
digits and the day part one or two digits or a space-padded nonzero
digit, not exactly two digits as the strict reading of YYYY-MM-DD and
YYYY-MM would say; it signals InvalidDateFormat exactly when the string
matches neither relaxed pattern with valid calendar fields. -/
theorem parse_month_or_date_spec (s : String) (y m d : Nat) :
    (strictYMD s = some (y, m, d) → validDateB y m d = true →
      parse_month_or_date s = Except.ok ⟨y, m, d⟩) ∧
    (strictYM s = some (y, m) → 1 ≤ m → m ≤ 12 → 1 ≤ y →
      parse_month_or_date s = Except.ok ⟨y, m, 1⟩) ∧
    (relaxedYMD s y m d → validDateB y m d = true →
      parse_month_or_date s = Except.ok ⟨y, m, d⟩) ∧
    (relaxedYM s y m → 1 ≤ y → parse_month_or_date s = Except.ok ⟨y, m, 1⟩) ∧
    (parse_month_or_date s = Except.error ApiError.InvalidDateFormat ↔
      (¬ ∃ y2 m2 d2, relaxedYMD s y2 m2 d2 ∧ validDateB y2 m2 d2 = true) ∧
      (¬ ∃ y2 m2, relaxedYM s y2 m2 ∧ 1 ≤ y2)) :=
  ⟨fun h hv => parse_of_relaxedYMD (strictYMD_relaxed h hv) hv,
   fun h hm1 hm12 hy => parse_of_relaxedYM (strictYM_relaxed h hm1 hm12) hy,
   fun h hv => parse_of_relaxedYMD h hv,
   fun h hy => parse_of_relaxedYM h hy,
   parse_error_iff s⟩

/-- Witness for C7: the two spec examples, a full date and a month, and
the space-padded day form strptime also accepts. -/
theorem parse_month_or_date_spec_witness :
    parse_month_or_date ("2025-12-15") = Except.ok ⟨2025, 12, 15⟩ ∧
    parse_month_or_date ("2025-12") = Except.ok ⟨2025, 12, 1⟩ ∧
    parse_month_or_date ("2025-12- 5") = Except.ok ⟨2025, 12, 5⟩ :=
  ⟨(parse_month_or_date_spec ("2025-12-15") 2025 12 15).1 rfl rfl,
   (parse_month_or_date_spec ("2025-12") 2025 12 1).2.1 rfl
     (by norm_num) (by norm_num) (by norm_num),
   (parse_month_or_date_spec ("2025-12- 5") 2025 12 5).2.2.1
     ⟨['2', '0', '2', '5'], ['1', '2'], [' ', '5'], rfl, (by decide), (by decide),
      rfl, Or.inr rfl, rfl, rfl, (by norm_num), (by norm_num),
      Or.inr ⟨' ', '5', rfl, rfl, (by decide), (by decide), rfl⟩⟩ rfl⟩

/-- Counterexample to C7 as stated: the string 2025-1 matches neither
YYYY-MM-DD nor YYYY-MM read strictly (its month part has a single digit),
yet the Date Normalizer accepts it and returns 2025-01-01 rather than
signalling InvalidDateFormat. -/
theorem parse_relaxed_accepts_cex :
    parse_month_or_date ("2025-1") = Except.ok ⟨2025, 1, 1⟩ ∧
    strictYMD ("2025-1") = none ∧ strictYM ("2025-1") = none :=
  ⟨rfl, rfl, rfl⟩

end PeriodPoverty
